import Mathlib

/-
  Verification development for the OTTO control-link layer:
  the TOOT_MCU_FIFO_Controller protocol codec and dispatcher
  (boards/parts/controller/toot-mcu-fifo/src/controller.cpp)
  and the generic double-buffered exchange structure
  (src/util/locked.hpp), shallowly embedded in Lean 4.
-/

namespace Otto

/-- Bytes are modelled as natural numbers; where the value range matters a
`< 256` hypothesis appears in the theorem. -/
abbrev Byte := Nat

/-- The frame command tags, from `BETTER_ENUM(Command, std::uint8_t, ...)` in
controller.cpp. -/
inductive Command where
  | clear_all_leds
  | clear_led_group
  | set_led_color
  | key_down
  | key_up
  | blue_enc_step
  | green_enc_step
  | yellow_enc_step
  | red_enc_step
  deriving DecidableEq

/-- The fixed numeric tag of each command (`Command::_to_integral`). -/
def Command.toByte : Command → Byte
  | .clear_all_leds => 0xE0
  | .clear_led_group => 0xE1
  | .set_led_color => 0xEC
  | .key_down => 0x20
  | .key_up => 0x21
  | .blue_enc_step => 0x30
  | .green_enc_step => 0x31
  | .yellow_enc_step => 0x32
  | .red_enc_step => 0x33

/-- Exact-match lookup of a byte against the fixed tag table; a byte that is
none of the nine tags yields `none` (the value `Command::_from_integral_unchecked`
returns in that case matches no switch case, which the embedding folds into
`none`). -/
def Command.fromByte (b : Byte) : Option Command :=
  if b = 0xE0 then some .clear_all_leds
  else if b = 0xE1 then some .clear_led_group
  else if b = 0xEC then some .set_led_color
  else if b = 0x20 then some .key_down
  else if b = 0x21 then some .key_up
  else if b = 0x30 then some .blue_enc_step
  else if b = 0x31 then some .green_enc_step
  else if b = 0x32 then some .yellow_enc_step
  else if b = 0x33 then some .red_enc_step
  else none

/-- The physical key identifiers. The enum itself lives in
board/controller.hpp (outside this slice); the constructor names are the ones
used by controller.cpp (S0..S15, C0..C9) and main.cpp (shift, settings). -/
inductive Key where
  | S0 | S1 | S2 | S3 | S4 | S5 | S6 | S7
  | S8 | S9 | S10 | S11 | S12 | S13 | S14 | S15
  | C0 | C1 | C2 | C3 | C4 | C5 | C6 | C7 | C8 | C9
  | shift | settings
  deriving DecidableEq

/-- Internal key events delivered to the key-event sink (`keypress` /
`keyrelease`). -/
inductive KeyEvent where
  | press (k : Key)
  | release (k : Key)
  deriving DecidableEq

/-- MIDI events delivered to the audio manager (`NoteOnEvent` /
`NoteOffEvent`); the note is the C++ `int` argument. -/
inductive MidiEvent where
  | noteOn (note : Int)
  | noteOff (note : Int)
  deriving DecidableEq

/-- The four encoder channels. -/
inductive Encoder where
  | blue | green | yellow | red
  deriving DecidableEq

/-- An encoder event: channel plus signed step delta. -/
structure EncoderEvent where
  channel : Encoder
  steps : Int
  deriving DecidableEq

/-- Everything a dispatch emits: events to the three sinks plus the number of
error-level log entries (`LOGE`). -/
structure Output where
  keyEvents : List KeyEvent
  midiEvents : List MidiEvent
  encoderEvents : List EncoderEvent
  errorLogs : Nat
  deriving DecidableEq

/-- Failure states of the C++ code: `OTTO_ASSERT`/`assert` violations,
`gsl` bounds-checked access on an out-of-range index, and
`OTTO_UNREACHABLE`. -/
inductive Failure where
  | assertionFailure
  | boundsViolation
  | unreachable
  deriving DecidableEq

/-- `to_int8` from controller.cpp: `(x >= 128 ? x - 256 : x)` on a `uint8_t`,
i.e. two's-complement signed decoding of a byte. -/
def to_int8 (x : Byte) : Int :=
  if 128 ≤ x then (x : Int) - 256 else (x : Int)

/-- `TMFC::insert_key_event`: `key_down` emits a key press, `key_up` a key
release, anything else is `OTTO_UNREACHABLE`. -/
def insert_key_event (cmd : Command) (key : Key) : Except Failure Output :=
  match cmd with
  | .key_down => .ok ⟨[.press key], [], [], 0⟩
  | .key_up => .ok ⟨[.release key], [], [], 0⟩
  | _ => .error .unreachable

/-- The key-to-MIDI-note mapping: the `switch (key)` inside
`TMFC::insert_key_or_midi`, one case per mapped key; keys with no case
(the `default:` branch) have no mapping. -/
def midiNote : Key → Option Nat
  | .S0 => some 47
  | .S1 => some 48
  | .C0 => some 49
  | .S2 => some 50
  | .C1 => some 51
  | .S3 => some 52
  | .S4 => some 53
  | .C2 => some 54
  | .S5 => some 55
  | .C3 => some 56
  | .S6 => some 57
  | .C4 => some 58
  | .S7 => some 59
  | .S8 => some 60
  | .C5 => some 61
  | .S9 => some 62
  | .C6 => some 63
  | .S10 => some 64
  | .S11 => some 65
  | .C7 => some 66
  | .S12 => some 67
  | .C8 => some 68
  | .S13 => some 69
  | .C9 => some 70
  | .S14 => some 71
  | .S15 => some 72
  | _ => none

/-- The key-to-MIDI-note mapping read off as a table, one entry per `case` of
the switch in `TMFC::insert_key_or_midi`, in source order. -/
def midiTable : List (Key × Nat) :=
  [(.S0, 47), (.S1, 48), (.C0, 49), (.S2, 50), (.C1, 51), (.S3, 52),
   (.S4, 53), (.C2, 54), (.S5, 55), (.C3, 56), (.S6, 57), (.C4, 58),
   (.S7, 59), (.S8, 60), (.C5, 61), (.S9, 62), (.C6, 63), (.S10, 64),
   (.S11, 65), (.C7, 66), (.S12, 67), (.C8, 68), (.S13, 69), (.C9, 70),
   (.S14, 71), (.S15, 72)]

/-- The `send_midi` lambda inside `TMFC::insert_key_or_midi`: note-on for
`key_down`, note-off for `key_up`, nothing otherwise. -/
def sendMidi (cmd : Command) (note : Int) : List MidiEvent :=
  if cmd = .key_down then [.noteOn note]
  else if cmd = .key_up then [.noteOff note]
  else []

/-- `TMFC::insert_key_or_midi`. `keyOf` stands for
`Key::_from_integral_unchecked`, whose numeric values live in the header
outside this slice; every theorem quantifies over it. The empty-args case is
the `OTTO_ASSERT(args.size() > 0)` failure. -/
def insert_key_or_midi (keyOf : Byte → Key) (cmd : Command) (args : List Byte)
    (do_send_midi : Bool) : Except Failure Output :=
  match args with
  | [] => .error .assertionFailure
  | a :: _ =>
    let key := keyOf a
    if !do_send_midi then insert_key_event cmd key
    else
      match midiNote key with
      | some note => .ok ⟨[], sendMidi cmd (note : Int), [], 0⟩
      | none => insert_key_event cmd key

/-- The encoder-step arm of `TMFC::handle_message`:
`encoder({channel, to_int8(bytes.at(0))})`; `bytes.at(0)` on an empty span is
a bounds-check failure. -/
def encoderStep (channel : Encoder) (args : List Byte) : Except Failure Output :=
  match args with
  | [] => .error .boundsViolation
  | a :: _ => .ok ⟨[], [], [⟨channel, to_int8 a⟩], 0⟩

/-- `TMFC::handle_message`: asserts the frame non-empty, reads the tag,
slices off the payload, and dispatches. The `default:` arm — reached both by
the three LED commands and by a byte matching no tag — logs
"Unparsable message" once and emits nothing. -/
def handle_message (keyOf : Byte → Key) (send_midi_ : Bool) (bytes : List Byte) :
    Except Failure Output :=
  match bytes with
  | [] => .error .assertionFailure
  | b :: rest =>
    match Command.fromByte b with
    | some .key_up => insert_key_or_midi keyOf .key_up rest send_midi_
    | some .key_down => insert_key_or_midi keyOf .key_down rest send_midi_
    | some .blue_enc_step => encoderStep .blue rest
    | some .green_enc_step => encoderStep .green rest
    | some .yellow_enc_step => encoderStep .yellow rest
    | some .red_enc_step => encoderStep .red rest
    | _ => .ok ⟨[], [], [], 1⟩

/-- `make_message` from controller.cpp: a frame holding just the tag byte. -/
def make_message (cmd : Command) : List Byte :=
  [cmd.toByte]

/-- Modelled from the spec: `encode(Command, args)` "produces the tag byte
followed by argument bytes in the fixed per-command order". The zero-argument
case is `make_message` from the source; the with-arguments callers live
outside this slice. -/
def encode (cmd : Command) (args : List Byte) : List Byte :=
  cmd.toByte :: args

/-- The decode step of `TMFC::handle_message` (lines 124-125): the first byte
is looked up as the tag, the remainder is the argument payload. -/
def decode (bytes : List Byte) : Option Command × List Byte :=
  match bytes with
  | [] => (none, [])
  | b :: rest => (Command.fromByte b, rest)

/-- The six commands that carry a single argument byte. -/
def singleArgCommands : List Command :=
  [.key_down, .key_up, .blue_enc_step, .green_enc_step, .yellow_enc_step, .red_enc_step]

/-- The `AfterSwap` template parameter of `util::double_buffered`:
`clear_inner` clears the first argument (the new inner slot),
`clear_outer` clears the second (the new outer slot). -/
inductive AfterSwap where
  | clearInner
  | clearOuter
  deriving DecidableEq

/-- `util::double_buffered<T>` from locked.hpp: `_store` is the two-element
array (fields `store0`, `store1`), `_inner_idx` the `std::atomic<char>`
index, kept as a plain `Nat` so that the membership of the index in `{0, 1}`
is a provable invariant rather than a typing assumption. Construction
initializes `_inner_idx = 0`. -/
structure double_buffered (T : Type) where
  store0 : T
  store1 : T
  innerIdx : Nat

namespace double_buffered

variable {T : Type}

/-- `_store[i]`: indexing the two-element array; an index outside `{0, 1}`
is out of bounds, modelled as `none`. -/
def storeGet (d : double_buffered T) (i : Nat) : Option T :=
  if i = 0 then some d.store0
  else if i = 1 then some d.store1
  else none

/-- Mutate `_store[i]` in place by `f`; out of bounds leaves the store
untouched (the C++ would be undefined there — the invariant theorems show the
index never leaves `{0, 1}`). -/
def storeModify (d : double_buffered T) (i : Nat) (f : T → T) : double_buffered T :=
  if i = 0 then { d with store0 := f d.store0 }
  else if i = 1 then { d with store1 := f d.store1 }
  else d

/-- The constructors of `double_buffered`: both slots supplied (or defaulted),
`_inner_idx = 0`. -/
def construct (inner outer : T) : double_buffered T :=
  ⟨inner, outer, 0⟩

/-- `inner()`: `_store[_inner_idx]`, read without locking. -/
def innerSlot (d : double_buffered T) : Option T :=
  d.storeGet d.innerIdx

/-- `outer()`: `_store[(_inner_idx + 1) % 2]`, read under the lock. -/
def outerSlot (d : double_buffered T) : Option T :=
  d.storeGet ((d.innerIdx + 1) % 2)

/-- `outer_locked(f)`: apply `f` to `_store[(_inner_idx + 1) % 2]` under the
lock; the embedding keeps the state change `f` makes to the slot. -/
def outer_locked (d : double_buffered T) (f : T → T) : double_buffered T :=
  d.storeModify ((d.innerIdx + 1) % 2) f

/-- `swap()`: `_inner_idx = (_inner_idx + 1) % 2`, then
`AfterSwap{}(_store[_inner_idx % 2], _store[(_inner_idx + 1) % 2])`, where the
policy clears exactly one of its two arguments via `T.clear()` (the `clear`
parameter). -/
def swap (d : double_buffered T) (clear : T → T) (policy : AfterSwap) :
    double_buffered T :=
  let d1 : double_buffered T := { d with innerIdx := (d.innerIdx + 1) % 2 }
  match policy with
  | .clearInner => d1.storeModify (d1.innerIdx % 2) clear
  | .clearOuter => d1.storeModify ((d1.innerIdx + 1) % 2) clear

end double_buffered

/-- One operation on a `double_buffered` instance; reads leave the state
unchanged. -/
inductive DBOp (T : Type) where
  | doSwap
  | doOuterLocked (f : T → T)
  | readInner
  | readOuter

/-- Run one operation against the state. -/
def execOp {T : Type} (clear : T → T) (policy : AfterSwap)
    (d : double_buffered T) : DBOp T → double_buffered T
  | .doSwap => d.swap clear policy
  | .doOuterLocked f => d.outer_locked f
  | .readInner => d
  | .readOuter => d

/-- Run a sequence of operations. -/
def execOps {T : Type} (clear : T → T) (policy : AfterSwap)
    (d : double_buffered T) (ops : List (DBOp T)) : double_buffered T :=
  ops.foldl (execOp clear policy) d

/-- `TMFC::queue_message`: append the frame's bytes to the outer slot of
`write_buffer_` under its lock (`reserve` + `copy` to a back inserter is
concatenation). -/
def queue_message (message : List Byte) (d : double_buffered (List Byte)) :
    double_buffered (List Byte) :=
  d.outer_locked (fun b => b ++ message)

/-- `std::vector<...>::clear()` for the byte-sequence instantiation. -/
def byteClear : List Byte → List Byte := fun _ => []

/-- The inbound FIFO error kinds the reader loop distinguishes:
`util::FIFO::ErrorCode::empty_buffer` versus anything else (the spec requires
the taxonomy to hold "at least {empty_buffer, other}"). -/
inductive ErrorCode where
  | empty_buffer
  | otherError
  deriving DecidableEq

/-- What one iteration of the reader-loop body produces: the dispatch result
when a frame was read, the number of error-log entries, and whether the loop
goes on to its next iteration. -/
structure IterResult where
  dispatched : Option (Except Failure Output)
  errorLogs : Nat
  continues : Bool

/-- One iteration of the reader thread's loop body in the
`TOOT_MCU_FIFO_Controller` constructor: `fifo.read_line().map(handle_message)`
`.map_error(...)`, where the error handler logs unless the code is
`empty_buffer`; either way the loop proceeds. -/
def reader_iteration (keyOf : Byte → Key) (send_midi_ : Bool)
    (readResult : Except ErrorCode (List Byte)) : IterResult :=
  match readResult with
  | .ok bytes => ⟨some (handle_message keyOf send_midi_ bytes), 0, true⟩
  | .error e => ⟨none, if e = .empty_buffer then 0 else 1, true⟩

/-- Discriminates the real FIFO controller from the dummy substitute. -/
inductive ControllerKind where
  | realFifo
  | dummy
  deriving DecidableEq

/-- The capability surface the factory's caller sees: whether
`queue_message` and the LED operations can be called successfully. -/
structure ControllerImpl where
  kind : ControllerKind
  accepts_queue_message : Bool
  accepts_led_ops : Bool
  deriving DecidableEq

/-- The real controller: `queue_message` appends under a lock and cannot
fail; `set_color` / `flush_leds` / `clear_leds` are no-ops in the source. -/
def realController : ControllerImpl :=
  ⟨.realFifo, true, true⟩

/-- Modelled from the spec: `Controller::make_dummy` (declared in
board/controller.hpp, outside this slice) returns a no-op controller whose
`queue_message` and LED operations succeed as no-ops. -/
def make_dummy : ControllerImpl :=
  ⟨.dummy, true, true⟩

/-- A construction attempt throwing a `std::exception`. -/
inductive ConstructionError where
  | stdException
  deriving DecidableEq

/-- `TMFC::make_or_dummy`: try to construct the real controller; on an
exception, log once (`LOGE("Couldn't set up FIFO controller. ...")`) and
return the dummy. The second component counts the error-log entries. -/
def make_or_dummy (attempt : Except ConstructionError Unit) : ControllerImpl × Nat :=
  match attempt with
  | .ok _ => (realController, 0)
  | .error _ => (make_dummy, 1)

/-
  Theorems.
-/

/-- Claim C1: for every key-down or key-up dispatched through
`insert_key_or_midi`, if the MIDI-mode flag is off or the key has no MIDI
mapping, exactly one internal key-press (key-down) or key-release (key-up)
event is emitted and zero MIDI events; if the flag is on and the key has a
mapping, exactly one MIDI note-on (key-down) or note-off (key-up) with the
mapped note is emitted and zero internal events; the two paths are mutually
exclusive, never both. -/
theorem C1_key_or_midi_mutually_exclusive (keyOf : Byte → Key) (cmd : Command)
    (b : Byte) (rest : List Byte) (midi : Bool)
    (hcmd : cmd = .key_down ∨ cmd = .key_up) :
    ((midi = false ∨ midiNote (keyOf b) = none) →
      insert_key_or_midi keyOf cmd (b :: rest) midi =
        .ok ⟨[if cmd = .key_down then .press (keyOf b) else .release (keyOf b)],
          [], [], 0⟩) ∧
    (∀ note : Nat, midi = true → midiNote (keyOf b) = some note →
      insert_key_or_midi keyOf cmd (b :: rest) midi =
        .ok ⟨[], [if cmd = .key_down then .noteOn (note : Int) else .noteOff (note : Int)],
          [], 0⟩) ∧
    (∀ out : Output, insert_key_or_midi keyOf cmd (b :: rest) midi = .ok out →
      out.keyEvents = [] ∨ out.midiEvents = []) := by
  refine ⟨?_, ?_, ?_⟩
  · rintro (hm | hm)
    · subst hm
      rcases hcmd with h | h <;> subst h <;>
        simp [insert_key_or_midi, insert_key_event]
    · rcases hcmd with h | h <;> subst h <;> cases midi <;>
        simp [insert_key_or_midi, insert_key_event, hm]
  · rintro note hm hnote
    subst hm
    rcases hcmd with h | h <;> subst h <;>
      simp [insert_key_or_midi, hnote, sendMidi]
  · rintro out hout
    rcases hcmd with h | h <;> subst h <;> cases midi <;>
      rcases hmn : midiNote (keyOf b) with _ | note <;>
      simp [insert_key_or_midi, insert_key_event, hmn, sendMidi] at hout <;>
      simp [← hout]

/-- Witness for C1 at a concrete modifier key with MIDI mode off. -/
theorem C1_witness :
    insert_key_or_midi (fun _ => Key.shift) .key_down [0] false =
      .ok ⟨[.press Key.shift], [], [], 0⟩ := by
  have h := (C1_key_or_midi_mutually_exclusive (fun _ => Key.shift) .key_down 0 [] false
    (Or.inl rfl)).1 (Or.inl rfl)
  simpa using h

/-- Claim C2: the signed-delta decoding `to_int8` maps a byte b in [0,127] to
b and a byte in [128,255] to b - 256; concretely 0x01 to 1, 0x7F to 127,
0x80 to -128, 0xFF to -1. -/
theorem C2_to_int8_signed_decode (b : Byte) (hb : b < 256) :
    (b ≤ 127 → to_int8 b = (b : Int)) ∧
    (128 ≤ b → to_int8 b = (b : Int) - 256) ∧
    to_int8 0x01 = 1 ∧ to_int8 0x7F = 127 ∧
    to_int8 0x80 = -128 ∧ to_int8 0xFF = -1 := by
  refine ⟨?_, ?_, by decide, by decide, by decide, by decide⟩
  · intro h
    have hlt : ¬ (128 ≤ b) := Nat.not_le.mpr (Nat.lt_succ_of_le h)
    simp [to_int8, hlt]
  · intro h
    simp [to_int8, h]

/-- Witness for C2 at bytes 5 and 200. -/
theorem C2_witness :
    to_int8 5 = (5 : Int) ∧ to_int8 200 = (200 : Int) - 256 :=
  ⟨(C2_to_int8_signed_decode 5 (by decide)).1 (by decide),
   (C2_to_int8_signed_decode 200 (by decide)).2.1 (by decide)⟩

/-- Claim C5: for the six single-argument commands, decoding the encoding
returns the same command and argument bytes:
`decode (encode cmd args) = (some cmd, args)`. -/
theorem C5_roundtrip (cmd : Command) (args : List Byte)
    (hc : cmd ∈ singleArgCommands) (ha : args.length = 1) :
    decode (encode cmd args) = (some cmd, args) := by
  have hcb : Command.fromByte cmd.toByte = some cmd := by
    cases cmd <;> rfl
  simp [decode, encode, hcb]

/-- Witness for C5 on a key-down frame with argument byte 7. -/
theorem C5_witness : decode (encode .key_down [7]) = (some .key_down, [7]) :=
  C5_roundtrip .key_down [7] (by decide) rfl

/-- Claim C6: a non-empty frame whose first byte is none of the nine fixed
command tags emits no key, MIDI, or encoder event, logs exactly one error,
and does not fail. -/
theorem C6_unknown_tag_dropped (keyOf : Byte → Key) (midi : Bool) (b : Byte)
    (rest : List Byte)
    (hb : b ∉ ([0x20, 0x21, 0x30, 0x31, 0x32, 0x33, 0xE0, 0xE1, 0xEC] : List Byte)) :
    handle_message keyOf midi (b :: rest) = .ok ⟨[], [], [], 1⟩ := by
  simp only [List.mem_cons, List.mem_singleton, not_or] at hb
  obtain ⟨h1, h2, h3, h4, h5, h6, h7, h8, h9, -⟩ := hb
  have hfb : Command.fromByte b = none := by
    simp [Command.fromByte, h1, h2, h3, h4, h5, h6, h7, h8, h9]
  simp [handle_message, hfb]

/-- Witness for C6 at the unrecognized tag 0x99. -/
theorem C6_witness :
    handle_message (fun _ => Key.shift) true [0x99, 5] = .ok ⟨[], [], [], 1⟩ :=
  C6_unknown_tag_dropped (fun _ => Key.shift) true 0x99 [5] (by decide)

/-- Claim C7: in a reader-loop iteration whose read fails, an empty-buffer
error is swallowed with no log entry, any other error kind is logged once; in
both cases nothing is dispatched and the loop continues (never terminates). -/
theorem C7_reader_error_handling (keyOf : Byte → Key) (midi : Bool) :
    reader_iteration keyOf midi (.error .empty_buffer) = ⟨none, 0, true⟩ ∧
    (∀ e : ErrorCode, e ≠ .empty_buffer →
      reader_iteration keyOf midi (.error e) = ⟨none, 1, true⟩) ∧
    (∀ r : Except ErrorCode (List Byte),
      (reader_iteration keyOf midi r).continues = true) := by
  refine ⟨rfl, ?_, ?_⟩
  · intro e he
    simp [reader_iteration, he]
  · intro r
    cases r <;> rfl

/-- Witness for C7 on a non-empty-buffer read error. -/
theorem C7_witness :
    reader_iteration (fun _ => Key.shift) false (.error .otherError) =
      ⟨none, 1, true⟩ :=
  (C7_reader_error_handling (fun _ => Key.shift) false).2.1 .otherError (by decide)

/-- Claim C8: the factory `make_or_dummy` is total (never propagates an
exception): a successful construction returns the real controller with no
error log, a failed one logs once and returns the dummy, and in all cases the
returned controller accepts `queue_message` and the LED operations. -/
theorem C8_factory_never_throws (attempt : Except ConstructionError Unit) :
    ((make_or_dummy attempt).1.accepts_queue_message = true ∧
     (make_or_dummy attempt).1.accepts_led_ops = true) ∧
    (attempt = .ok () → make_or_dummy attempt = (realController, 0)) ∧
    (∀ e : ConstructionError, attempt = .error e →
      make_or_dummy attempt = (make_dummy, 1)) := by
  cases attempt <;> simp [make_or_dummy, realController, make_dummy]

/-- Witness for C8 on a failing construction attempt. -/
theorem C8_witness : make_or_dummy (.error .stdException) = (make_dummy, 1) :=
  (C8_factory_never_throws (.error .stdException)).2.2 .stdException rfl

/-- Claim C3: the key-to-MIDI-note mapping is a fixed table of exactly 26
entries whose notes are the contiguous increasing range 47..72; the switch in
`insert_key_or_midi` agrees with the table everywhere; and with MIDI mode on,
key-down of S0 yields note-on 47 and key-up of S0 yields note-off 47. -/
theorem C3_midi_table (keyOf : Byte → Key) (b : Byte) (rest : List Byte) :
    midiTable.length = 26 ∧
    midiTable.map Prod.snd = List.range' 47 26 ∧
    (∀ k n, midiNote k = some n ↔ (k, n) ∈ midiTable) ∧
    (keyOf b = Key.S0 →
      insert_key_or_midi keyOf .key_down (b :: rest) true =
        .ok ⟨[], [.noteOn 47], [], 0⟩ ∧
      insert_key_or_midi keyOf .key_up (b :: rest) true =
        .ok ⟨[], [.noteOff 47], [], 0⟩) := by
  refine ⟨rfl, by decide, ?_, ?_⟩
  · intro k n
    cases k <;> simp [midiNote, midiTable, eq_comm]
  · intro hk
    constructor <;> simp [insert_key_or_midi, hk, midiNote, sendMidi]

/-- Witness for C3 with a byte decoding to key S0 under MIDI mode. -/
theorem C3_witness :
    insert_key_or_midi (fun _ => Key.S0) .key_down [0] true =
      .ok ⟨[], [.noteOn 47], [], 0⟩ :=
  ((C3_midi_table (fun _ => Key.S0) 0 []).2.2.2 rfl).1

/-- Dispatching a key-down or key-up with at least one argument byte always
succeeds, whatever the MIDI flag and mapping. -/
theorem insert_key_or_midi_ok_of_args (keyOf : Byte → Key) (cmd : Command)
    (b : Byte) (rest : List Byte) (midi : Bool)
    (hcmd : cmd = Command.key_down ∨ cmd = Command.key_up) :
    ∃ out : Output, insert_key_or_midi keyOf cmd (b :: rest) midi = .ok out := by
  cases midi
  · rcases hcmd with h | h <;> subst h
    · exact ⟨⟨[.press (keyOf b)], [], [], 0⟩,
        by simp [insert_key_or_midi, insert_key_event]⟩
    · exact ⟨⟨[.release (keyOf b)], [], [], 0⟩,
        by simp [insert_key_or_midi, insert_key_event]⟩
  · rcases hmn : midiNote (keyOf b) with _ | note
    · rcases hcmd with h | h <;> subst h
      · exact ⟨⟨[.press (keyOf b)], [], [], 0⟩,
          by simp [insert_key_or_midi, insert_key_event, hmn]⟩
      · exact ⟨⟨[.release (keyOf b)], [], [], 0⟩,
          by simp [insert_key_or_midi, insert_key_event, hmn]⟩
    · exact ⟨⟨[], sendMidi cmd (note : Int), [], 0⟩,
        by simp [insert_key_or_midi, hmn]⟩

/-- Claim C10: for each of the six single-argument commands, a frame of
length at least two (tag plus an argument byte) is handled without hitting
the argument-count assertion or the bounds-checked access, while the
bare-tag frame fails on exactly one of the two. -/
theorem C10_argument_presence (keyOf : Byte → Key) (midi : Bool)
    (cmd : Command) (a : Byte) (rest : List Byte)
    (hc : cmd ∈ singleArgCommands) :
    (∃ out : Output,
      handle_message keyOf midi (cmd.toByte :: a :: rest) = .ok out) ∧
    (∃ f : Failure, handle_message keyOf midi [cmd.toByte] = .error f ∧
      (f = .assertionFailure ∨ f = .boundsViolation)) := by
  have h6 : cmd = Command.key_down ∨ cmd = Command.key_up ∨
      cmd = Command.blue_enc_step ∨ cmd = Command.green_enc_step ∨
      cmd = Command.yellow_enc_step ∨ cmd = Command.red_enc_step := by
    simpa [singleArgCommands] using hc
  constructor
  · rcases h6 with h | h | h | h | h | h <;> subst h
    · exact insert_key_or_midi_ok_of_args keyOf _ a rest midi (Or.inl rfl)
    · exact insert_key_or_midi_ok_of_args keyOf _ a rest midi (Or.inr rfl)
    all_goals exact ⟨_, rfl⟩
  · rcases h6 with h | h | h | h | h | h <;> subst h
    · exact ⟨.assertionFailure, rfl, Or.inl rfl⟩
    · exact ⟨.assertionFailure, rfl, Or.inl rfl⟩
    all_goals exact ⟨.boundsViolation, rfl, Or.inr rfl⟩

/-- Witness for C10 on the blue-encoder command. -/
theorem C10_witness :
    (∃ out : Output, handle_message (fun _ => Key.shift) false
      (Command.toByte .blue_enc_step :: 5 :: []) = .ok out) ∧
    (∃ f : Failure, handle_message (fun _ => Key.shift) false
      [Command.toByte .blue_enc_step] = .error f ∧
      (f = .assertionFailure ∨ f = .boundsViolation)) :=
  C10_argument_presence (fun _ => Key.shift) false .blue_enc_step 5 [] (by decide)

/-- Claim C4: `queue_message` appends the frame's bytes to the end of the
outer slot, leaving the previous outer contents (as a prefix) and the inner
slot unchanged; after appending x and swapping with the clear-outer policy,
the inner slot holds exactly the accumulated bytes including x and the outer
slot reads back empty. -/
theorem C4_queue_message_swap (d : double_buffered (List Byte))
    (m x : List Byte) (hidx : d.innerIdx = 0 ∨ d.innerIdx = 1) :
    ((queue_message m d).innerSlot = d.innerSlot ∧
     (queue_message m d).outerSlot = d.outerSlot.map (fun bs => bs ++ m)) ∧
    (((queue_message x d).swap byteClear .clearOuter).innerSlot =
       d.outerSlot.map (fun bs => bs ++ x) ∧
     ((queue_message x d).swap byteClear .clearOuter).outerSlot = some []) := by
  rcases hidx with h | h <;>
    simp [queue_message, double_buffered.outer_locked, double_buffered.swap,
      double_buffered.storeModify, double_buffered.storeGet,
      double_buffered.innerSlot, double_buffered.outerSlot, byteClear, h]

/-- Witness for C4 starting from a freshly constructed buffer. -/
theorem C4_witness :
    ((queue_message [9] (double_buffered.construct [1] [2])).swap
      byteClear .clearOuter).innerSlot = some [2, 9] ∧
    ((queue_message [9] (double_buffered.construct [1] [2])).swap
      byteClear .clearOuter).outerSlot = some [] := by
  have h := (C4_queue_message_swap (double_buffered.construct [1] [2]) [9] [9]
    (Or.inl rfl)).2
  simpa [double_buffered.construct, double_buffered.outerSlot,
    double_buffered.storeGet] using h

/-- `storeModify` never changes the inner index. -/
theorem storeModify_innerIdx {T : Type} (d : double_buffered T) (i : Nat)
    (f : T → T) : (d.storeModify i f).innerIdx = d.innerIdx := by
  unfold double_buffered.storeModify
  split
  · rfl
  · split
    · rfl
    · rfl

/-- `swap` sets the inner index to the flipped value, whatever the policy. -/
theorem swap_innerIdx {T : Type} (d : double_buffered T) (clear : T → T)
    (policy : AfterSwap) :
    (d.swap clear policy).innerIdx = (d.innerIdx + 1) % 2 := by
  cases policy <;> simp [double_buffered.swap, storeModify_innerIdx]

/-- `outer_locked` never changes the inner index. -/
theorem outer_locked_innerIdx {T : Type} (d : double_buffered T) (f : T → T) :
    (d.outer_locked f).innerIdx = d.innerIdx := by
  simp [double_buffered.outer_locked, storeModify_innerIdx]

/-- One operation keeps the inner index in {0, 1}. -/
theorem execOp_innerIdx_mem {T : Type} (clear : T → T) (policy : AfterSwap)
    (d : double_buffered T) (op : DBOp T)
    (h : d.innerIdx = 0 ∨ d.innerIdx = 1) :
    (execOp clear policy d op).innerIdx = 0 ∨
      (execOp clear policy d op).innerIdx = 1 := by
  cases op
  · rw [execOp, swap_innerIdx]
    rcases h with h | h <;> rw [h] <;> simp
  · rw [execOp, outer_locked_innerIdx]
    exact h
  · exact h
  · exact h

/-- Any operation sequence keeps the inner index in {0, 1}. -/
theorem execOps_innerIdx_mem {T : Type} (clear : T → T) (policy : AfterSwap)
    (d : double_buffered T) (ops : List (DBOp T))
    (h : d.innerIdx = 0 ∨ d.innerIdx = 1) :
    (execOps clear policy d ops).innerIdx = 0 ∨
      (execOps clear policy d ops).innerIdx = 1 := by
  induction ops generalizing d with
  | nil => exact h
  | cons op ops ih => exact ih _ (execOp_innerIdx_mem clear policy d op h)

/-- Claim C9: starting from a constructed `double_buffered` instance, after
any sequence of inner/outer reads, locked outer mutations, and swaps, the
inner index is still in {0, 1}; the inner and outer designations always name
distinct, valid slots; and one more swap flips the designation. -/
theorem C9_inner_outer_invariant {T : Type} (clear : T → T)
    (policy : AfterSwap) (i o : T) (ops : List (DBOp T)) :
    ((execOps clear policy (double_buffered.construct i o) ops).innerIdx = 0 ∨
     (execOps clear policy (double_buffered.construct i o) ops).innerIdx = 1) ∧
    ((execOps clear policy (double_buffered.construct i o) ops).innerIdx + 1) % 2 ≠
      (execOps clear policy (double_buffered.construct i o) ops).innerIdx ∧
    ((execOps clear policy (double_buffered.construct i o) ops).swap clear
        policy).innerIdx =
      ((execOps clear policy (double_buffered.construct i o) ops).innerIdx + 1) % 2 ∧
    ((execOps clear policy (double_buffered.construct i o) ops).swap clear
        policy).innerIdx ≠
      (execOps clear policy (double_buffered.construct i o) ops).innerIdx ∧
    (execOps clear policy (double_buffered.construct i o) ops).innerSlot.isSome = true ∧
    (execOps clear policy (double_buffered.construct i o) ops).outerSlot.isSome = true := by
  have hmem := execOps_innerIdx_mem clear policy (double_buffered.construct i o)
    ops (Or.inl rfl)
  rcases hmem with h | h <;>
    refine ⟨?_, ?_, ?_, ?_, ?_, ?_⟩ <;>
    first
      | exact Or.inl h
      | exact Or.inr h
      | (rw [swap_innerIdx, h]; decide)
      | (rw [h]; decide)
      | rw [swap_innerIdx]
      | (simp [double_buffered.innerSlot, double_buffered.outerSlot,
          double_buffered.storeGet, h])

end Otto
